import Mathlib

/-!
Verification development for the MacCamera recording-and-conversion pipeline.

The definitions below are a shallow embedding of the pipeline code:
the main-process IPC handlers (`sanitizeFilename`, `createErrorResponse`,
`hasEnoughDiskSpace`, the `save-recording` and `convert-to-mp4` handlers)
and the renderer-side recorder flow (`startRecording` chunk buffering,
`mediaRecorder.onstop`, `stopRecording`).

Strings are modelled as `List Char`, filesystem paths as lists of path
segments (`List (List Char)`), byte buffers as `List Nat`.  Asynchronous
filesystem effects are made explicit: each handler returns, next to its
IPC response, the ordered list of filesystem calls it performed.
-/

namespace MacCamera

/-- The allow-list of the regex `[^a-zA-Z0-9._-]` in `sanitizeFilename`:
letters, digits, dot, underscore and dash are kept, all else is replaced. -/
def isAllowedChar (c : Char) : Bool :=
  (97 ≤ c.toNat && c.toNat ≤ 122) ||
  (65 ≤ c.toNat && c.toNat ≤ 90) ||
  (48 ≤ c.toNat && c.toNat ≤ 57) ||
  c == '.' || c == '_' || c == '-'

/-- Node `path.posix.basename`: drop trailing separators, then keep the
run of non-separator characters at the end (the final path segment). -/
def basenameChars (l : List Char) : List Char :=
  (((l.reverse.dropWhile (fun c => c == '/')).takeWhile (fun c => !(c == '/')))).reverse

/-- `sanitizeFilename` from the main process: basename, then replace every
character outside the allow-list with an underscore. -/
def sanitizeFilename (l : List Char) : List Char :=
  (basenameChars l).map (fun c => if isAllowedChar c then c else '_')

/-- Node `path.join(dir, name)` for a normalized absolute directory `dir`
(given as its list of segments) and a single slash-free segment `name`,
including the normalization `path.join` performs: an empty segment and `.`
leave the directory unchanged, `..` moves to the parent. -/
def joinName (dir : List (List Char)) (name : List Char) : List (List Char) :=
  if name = [] then dir
  else if name = ['.'] then dir
  else if name = ['.', '.'] then dir.dropLast
  else dir ++ [name]

/-- `p` is a direct child of directory `dir`: exactly one segment deeper. -/
def isDirectChild (p dir : List (List Char)) : Bool :=
  p.dropLast == dir && p.length == dir.length + 1

/-- A concrete managed recordings directory used by closed counterexample
and witness statements. -/
def demoDir : List (List Char) :=
  ["Users", "me", "Documents", "MacCamera"].map String.toList

/-- JavaScript whitespace as tested by the `\s` class, restricted to the
ASCII whitespace characters that can occur in the error messages here. -/
def isJsSpace (c : Char) : Bool :=
  c == ' ' || c == '\t' || c == '\n' || c == '\r'

/-- The replacement token written for each matched path fragment. -/
def placeholder : List Char := ['[', 'p', 'a', 't', 'h', ']']

/-- The global regex replace `message.replace(/\/[^\s]+/g, [path])` of
`createErrorResponse`: each maximal occurrence of a slash followed by at
least one non-whitespace character is replaced by the placeholder. -/
def replacePaths : List Char → List Char
  | [] => []
  | [c] => [c]
  | c :: d :: rest =>
    if c == '/' && !(isJsSpace d) then
      placeholder ++ replacePaths ((d :: rest).dropWhile (fun x => !(isJsSpace x)))
    else
      c :: replacePaths (d :: rest)
  termination_by l => l.length
  decreasing_by
  · simp only [List.length_cons]
    have h : ((d :: rest).dropWhile (fun x => !(isJsSpace x))).length ≤ (d :: rest).length :=
      (List.dropWhile_sublist _).length_le
    simp only [List.length_cons] at h
    omega
  · simp

/-- A structurally recursive single pass equivalent to `replacePaths`
(proved as `replacePaths_eq_aux`): the flag records whether the scan is
currently inside a matched path fragment whose non-whitespace tail is
being consumed. -/
def replacePathsAux : Bool → List Char → List Char
  | true, [] => []
  | true, c :: rest =>
    if isJsSpace c then c :: replacePathsAux false rest
    else replacePathsAux true rest
  | false, [] => []
  | false, ['/'] => ['/']
  | false, '/' :: d :: rest =>
    if isJsSpace d then '/' :: replacePathsAux false (d :: rest)
    else placeholder ++ replacePathsAux true (d :: rest)
  | false, c :: rest => c :: replacePathsAux false rest

/-- An IPC response envelope `{ success, data?: path, error? }`; `data`
carries the returned path when present. -/
structure IPCResponse where
  success : Bool
  data : Option (List (List Char))
  error : Option (List Char)
  deriving DecidableEq, Repr

/-- `createErrorResponse`: uses the message of an `Error` (`some msg`) or
the fixed unknown-error text, replaces path fragments, and wraps the
result in a `{success:false, error}` envelope. -/
def createErrorResponse (err : Option (List Char)) : IPCResponse :=
  let message := err.getD ("An unknown error occurred".toList)
  { success := false, data := none, error := some (replacePaths message) }

/-- `MIN_FREE_SPACE_MB` constant of the main process. -/
def MIN_FREE_SPACE_MB : Nat := 100

/-- `hasEnoughDiskSpace`: the `fs.statfs` result is `some (bavail, bsize)`
or `none` when the call throws.  The JS float comparison
`(bavail*bsize)/(1024*1024) > MIN_FREE_SPACE_MB` is stated exactly over
naturals; a statfs failure is caught and reported as `true` (fail open). -/
def hasEnoughDiskSpace (statfs : Option (Nat × Nat)) : Bool :=
  match statfs with
  | some (bavail, bsize) => bavail * bsize > MIN_FREE_SPACE_MB * 1024 * 1024
  | none => true

/-- The payload of the `save-recording` IPC call as seen by the dynamic
shape check: the three `typeof`/`instanceof` facts, plus the field
contents used by the handler. -/
structure SaveRecordingData where
  isObject : Bool
  bufferIsArrayBuffer : Bool
  filenameIsString : Bool
  filename : List Char
  buffer : List Nat
  deriving DecidableEq, Repr

/-- `validateSaveRecordingData`: object shape, `buffer` an ArrayBuffer,
`filename` a string. -/
def validateSaveRecordingData (d : SaveRecordingData) : Bool :=
  d.isObject && d.bufferIsArrayBuffer && d.filenameIsString

/-- A filesystem call made by a handler, recorded in program order. -/
inductive FsEvent
  | statfsQuery
  | writeCall (path : List (List Char))
  | unlinkCall (path : List (List Char))
  deriving DecidableEq, Repr

/-- The filesystem environment a `save-recording` call runs against:
the statfs outcome and the `fs.writeFile` outcome (`some msg` = the write
throws an `Error` carrying `msg`). -/
structure SaveEnv where
  statfs : Option (Nat × Nat)
  writeResult : Option (List Char)
  deriving DecidableEq, Repr

/-- The distinct insufficient-space error text of the handlers. -/
def insufficientSpaceMsg : List Char :=
  ("Insufficient disk space. At least " ++ toString MIN_FREE_SPACE_MB ++
    "MB required.").toList

/-- What a `save-recording` call produced: the response returned to the
renderer and the ordered filesystem calls performed. -/
structure SaveOutcome where
  response : IPCResponse
  events : List FsEvent
  deriving DecidableEq, Repr

/-- The `save-recording` handler: validate, sanitize the filename, join it
onto the recordings directory, check disk space once, then write; a write
failure is caught and returned through `createErrorResponse` with no
further filesystem call. -/
def saveRecording (recordingsDir : List (List Char)) (env : SaveEnv)
    (d : SaveRecordingData) : SaveOutcome :=
  if !(validateSaveRecordingData d) then
    { response := { success := false, data := none,
                    error := some ("Invalid recording data".toList) },
      events := [] }
  else
    let sanitized := sanitizeFilename d.filename
    let outputPath := joinName recordingsDir sanitized
    if !(hasEnoughDiskSpace env.statfs) then
      { response := { success := false, data := none,
                      error := some insufficientSpaceMsg },
        events := [.statfsQuery] }
    else
      match env.writeResult with
      | none =>
        { response := { success := true, data := some outputPath, error := none },
          events := [.statfsQuery, .writeCall outputPath] }
      | some errMsg =>
        { response := createErrorResponse (some errMsg),
          events := [.statfsQuery, .writeCall outputPath] }

/-- How the ffmpeg subprocess finished: `exited code` for the `close`
event (Node reports the exit code as `number | null`), or `spawnError`
for the `error` event with the message of the error. -/
inductive FfmpegOutcome
  | exited (code : Option Int)
  | spawnError (errMsg : List Char)
  deriving DecidableEq, Repr

/-- Exit code rendered into the failure message, as JS template-string
interpolation renders it (`null` for a signal-terminated process). -/
def codeText : Option Int → List Char
  | some n => (toString n).toList
  | none => "null".toList

/-- Environment for the tail of a `convert-to-mp4` call: the subprocess
outcome and the `fs.unlink` outcome (`some msg` = unlink throws). -/
structure ConvertEnv where
  outcome : FfmpegOutcome
  unlinkResult : Option (List Char)
  deriving DecidableEq, Repr

/-- Result of the `close`/`error` handlers of a conversion: the resolved
response, whether a delete of the source was attempted, and whether the
source file was actually removed. -/
structure ConvertFinish where
  response : IPCResponse
  deleteAttempted : Bool
  sourceDeleted : Bool
  deriving DecidableEq, Repr

/-- The `ffmpeg.on(close)` / `ffmpeg.on(error)` handlers of
`convert-to-mp4`: on exit code `0` the task succeeds and, when `keepWebm`
is not truthy (`undefined` is falsy), the source is unlinked with any
unlink failure only logged; on a non-zero or null exit code the task
fails with the code in the message; on a spawn error the error is passed
through `createErrorResponse`.  Neither failure path touches the source. -/
def convertOnFinish (keepWebm : Option Bool) (env : ConvertEnv)
    (mp4Path : List (List Char)) : ConvertFinish :=
  match env.outcome with
  | .exited code =>
    if code = some 0 then
      if keepWebm.getD false = false then
        { response := { success := true, data := some mp4Path, error := none },
          deleteAttempted := true,
          sourceDeleted := env.unlinkResult.isNone }
      else
        { response := { success := true, data := some mp4Path, error := none },
          deleteAttempted := false, sourceDeleted := false }
    else
      { response := { success := false, data := none,
                      error := some (("Conversion failed with code ".toList) ++ codeText code) },
        deleteAttempted := false, sourceDeleted := false }
  | .spawnError errMsg =>
    { response := createErrorResponse (some errMsg),
      deleteAttempted := false, sourceDeleted := false }

/-- Renderer-side recorder state: the chunk buffer `chunksRef.current`,
the `isRecording` flag and whether `mediaRecorderRef.current` is set. -/
structure RecorderState where
  chunks : List (List Nat)
  isRecording : Bool
  hasRecorder : Bool
  deriving DecidableEq, Repr

/-- The state mutations of `startRecording` before `mediaRecorder.start`:
the chunk buffer is cleared, a recorder is installed and `isRecording`
becomes true. -/
def startRecordingInit (s : RecorderState) : RecorderState :=
  { s with chunks := [], isRecording := true, hasRecorder := true }

/-- The `ondataavailable` handler: a chunk is appended to the buffer when
`event.data.size > 0`, otherwise ignored. -/
def ondataavailable (s : RecorderState) (data : List Nat) : RecorderState :=
  if 0 < data.length then { s with chunks := s.chunks ++ [data] } else s

/-- Deliver a sequence of chunks in emission order. -/
def emitAll (s : RecorderState) (ds : List (List Nat)) : RecorderState :=
  ds.foldl ondataavailable s

/-- The blob built by `onstop`: `new Blob(chunksRef.current)` concatenates
the buffered chunks in order. -/
def onstopBlob (s : RecorderState) : List Nat :=
  s.chunks.flatten

/-- What `saveRecording` returned to the renderer inside `onstop`:
the awaited response, or a thrown exception (`threw`). -/
inductive SaveCall
  | resolved (resp : IPCResponse)
  | threw (msg : List Char)
  deriving DecidableEq, Repr

/-- Observable actions of the `onstop` save-then-convert flow: whether
`convertToMp4` was invoked and, when it was, the source path and
`keepWebm` argument it was invoked with. -/
structure StopFlowTrace where
  convertInvoked : Bool
  convertWebmPath : Option (List (List Char))
  convertKeepWebm : Option Bool
  deriving DecidableEq, Repr

/-- The `mediaRecorder.onstop` save-then-convert sequencing: the save is
awaited first; only on `success` with a returned path, and only when the
user opted into conversion, is `convertToMp4` invoked (with the saved
path and `keepWebm: true`); a failed or throwing save short-circuits. -/
def onstopFlow (wantMp4 : Bool) (save : SaveCall) : StopFlowTrace :=
  match save with
  | .threw _ => { convertInvoked := false, convertWebmPath := none, convertKeepWebm := none }
  | .resolved r =>
    if r.success && r.data.isSome then
      if wantMp4 then
        { convertInvoked := true, convertWebmPath := r.data, convertKeepWebm := some true }
      else
        { convertInvoked := false, convertWebmPath := none, convertKeepWebm := none }
    else
      { convertInvoked := false, convertWebmPath := none, convertKeepWebm := none }

/-- Result of a `stopRecording` call: the new state, whether
`mediaRecorder.stop()` was called, and whether the info toast fired. -/
structure StopResult where
  state : RecorderState
  recorderStopCalled : Bool
  toastShown : Bool
  deriving DecidableEq, Repr

/-- `stopRecording`: guarded on both a live recorder reference and the
`isRecording` flag; when the guard fails nothing happens. -/
def stopRecording (s : RecorderState) : StopResult :=
  if s.hasRecorder && s.isRecording then
    { state := { s with isRecording := false },
      recorderStopCalled := true, toastShown := true }
  else
    { state := s, recorderStopCalled := false, toastShown := false }

/-- `xs` starts with the given sequence. -/
def leadsWith : List Char → List Char → Bool
  | [], _ => true
  | _ :: _, [] => false
  | a :: as, b :: bs => a == b && leadsWith as bs

/-- The needle occurs as a contiguous subsequence of the haystack. -/
def containsSeq (needle : List Char) : List Char → Bool
  | [] => leadsWith needle []
  | c :: rest => leadsWith needle (c :: rest) || containsSeq needle rest

/-- No slash immediately followed by a non-whitespace character occurs:
the shape of a raw path fragment (the `/\/[^\s]+/` pattern) is absent. -/
def noRawPathFragment : List Char → Bool
  | c :: d :: rest => !(c == '/' && !(isJsSpace d)) && noRawPathFragment (d :: rest)
  | _ => true

/- Concrete inputs used by closed counterexample and witness statements. -/

/-- A well-formed `save-recording` payload with an ordinary filename. -/
def dataGood : SaveRecordingData :=
  { isObject := true, bufferIsArrayBuffer := true, filenameIsString := true,
    filename := "recording-1.webm".toList, buffer := [7, 7] }

/-- A well-formed payload whose filename consists only of separators, so
its sanitization is empty. -/
def dataSlashes : SaveRecordingData :=
  { isObject := true, bufferIsArrayBuffer := true, filenameIsString := true,
    filename := "///".toList, buffer := [1] }

/-- A well-formed payload whose filename is the traversal segment. -/
def dataDotDot : SaveRecordingData :=
  { isObject := true, bufferIsArrayBuffer := true, filenameIsString := true,
    filename := "..".toList, buffer := [1, 2, 3] }

/-- An environment with ample free space whose write throws. -/
def envWriteFail : SaveEnv :=
  { statfs := some (1000000, 4096),
    writeResult := some ("ENOSPC: no space left on device, write".toList) }

/-- An environment with ample free space whose write succeeds. -/
def envOk : SaveEnv := { statfs := some (1000000, 4096), writeResult := none }

/- Helper lemmas. -/

theorem noRaw_cons (x : Char) (R : List Char) (hx : (x == '/') = false) :
    noRawPathFragment (x :: R) = noRawPathFragment R := by
  cases R with
  | nil => rfl
  | cons y t => simp [noRawPathFragment, hx]

theorem noRaw_append_safe (xs R : List Char)
    (hxs : ∀ y ∈ xs, (y == '/') = false) :
    noRawPathFragment (xs ++ R) = noRawPathFragment R := by
  induction xs with
  | nil => rfl
  | cons x t ih =>
    rw [List.cons_append, noRaw_cons x (t ++ R) (hxs x (List.mem_cons_self x t))]
    exact ih (fun y hy => hxs y (List.mem_cons_of_mem x hy))

theorem isJsSpace_ne_slash (d : Char) (hd : isJsSpace d = true) :
    (d == '/') = false := by
  cases hc : d == '/' with
  | false => rfl
  | true =>
    have : d = '/' := by simpa using hc
    subst this
    simp [isJsSpace] at hd

theorem replacePaths_space_head (d : Char) (rest : List Char)
    (hd : isJsSpace d = true) :
    replacePaths (d :: rest) = d :: replacePaths rest := by
  cases rest with
  | nil => simp [replacePaths]
  | cons e t =>
    have hds : (d == '/') = false := isJsSpace_ne_slash d hd
    simp [replacePaths, hds]

theorem aux_false_space (d : Char) (rest : List Char)
    (hd : isJsSpace d = true) :
    replacePathsAux false (d :: rest) = d :: replacePathsAux false rest := by
  have hne : d ≠ '/' := by
    intro he
    subst he
    simp [isJsSpace] at hd
  cases rest with
  | nil => simp [replacePathsAux, hne]
  | cons e t => simp [replacePathsAux, hne]

theorem aux_true_eq_dropWhile (l : List Char) :
    replacePathsAux true l =
      replacePathsAux false (l.dropWhile (fun x => !(isJsSpace x))) := by
  induction l with
  | nil => rfl
  | cons c rest ih =>
    by_cases hc : isJsSpace c = true
    · rw [List.dropWhile_cons]
      simp only [hc, Bool.not_true, Bool.false_eq_true, if_false]
      rw [aux_false_space c rest hc]
      simp [replacePathsAux, hc]
    · have hc2 : isJsSpace c = false := by
        revert hc
        cases isJsSpace c <;> simp
      rw [List.dropWhile_cons]
      simp only [hc2, Bool.not_false, if_true]
      rw [← ih]
      simp [replacePathsAux, hc2]

theorem replacePaths_eq_aux (l : List Char) :
    replacePaths l = replacePathsAux false l := by
  induction l using replacePaths.induct with
  | case1 => simp [replacePaths, replacePathsAux]
  | case2 c =>
    by_cases hc : c = '/'
    · subst hc
      simp [replacePaths, replacePathsAux]
    · simp [replacePaths, replacePathsAux, hc]
  | case3 c d rest h ih =>
    rw [Bool.and_eq_true] at h
    have hc : c = '/' := by simpa using h.1
    have hd : isJsSpace d = false := by
      have h2 := h.2
      revert h2
      cases isJsSpace d <;> simp
    subst hc
    rw [replacePaths, if_pos (by simp [hd])]
    rw [ih, ← aux_true_eq_dropWhile]
    simp [replacePathsAux, hd]
  | case4 c d rest h ih =>
    rw [replacePaths, if_neg (by simp [h])]
    by_cases hc : c = '/'
    · subst hc
      have hd : isJsSpace d = true := by
        revert h
        cases hsp : isJsSpace d <;> simp
      simp [replacePathsAux, hd, ih]
    · simp [replacePathsAux, hc, ih]

theorem noRaw_replacePaths (l : List Char) :
    noRawPathFragment (replacePaths l) = true := by
  induction l using replacePaths.induct with
  | case1 => simp [replacePaths, noRawPathFragment]
  | case2 c => simp [replacePaths, noRawPathFragment]
  | case3 c d rest h ih =>
    rw [replacePaths, if_pos h,
      noRaw_append_safe placeholder _ (by decide)]
    exact ih
  | case4 c d rest h ih =>
    rw [replacePaths, if_neg (by simp [h])]
    cases hc : c == '/' with
    | false => rw [noRaw_cons c _ hc]; exact ih
    | true =>
      rw [hc] at h
      simp only [Bool.true_and, Bool.not_eq_true] at h
      have hd : isJsSpace d = true := by
        cases hsp : isJsSpace d with
        | true => rfl
        | false => rw [hsp] at h; simp at h
      rw [replacePaths_space_head d rest hd] at ih ⊢
      have hds : (d == '/') = false := isJsSpace_ne_slash d hd
      simp only [noRawPathFragment, hc, hd, Bool.not_true, Bool.and_false,
        Bool.not_false, Bool.true_and]
      rw [noRaw_cons d _ hds] at ih
      rw [noRaw_cons d _ hds]
      exact ih

theorem emitAll_chunks (s : RecorderState) (ds : List (List Nat)) :
    (emitAll s ds).chunks =
      s.chunks ++ ds.filter (fun d => decide (0 < d.length)) := by
  induction ds generalizing s with
  | nil => simp [emitAll]
  | cons d t ih =>
    have step : emitAll s (d :: t) = emitAll (ondataavailable s d) t := rfl
    rw [step, ih]
    by_cases hd : 0 < d.length
    · simp [ondataavailable, hd, List.filter_cons]
    · simp [ondataavailable, hd, List.filter_cons]

theorem flatten_filter_pos (ds : List (List Nat)) :
    (ds.filter (fun d => decide (0 < d.length))).flatten = ds.flatten := by
  induction ds with
  | nil => rfl
  | cons d t ih =>
    by_cases hd : 0 < d.length
    · simp [List.filter_cons, hd, ih]
    · have hnil : d = [] := List.length_eq_zero.mp (by omega)
      simp [List.filter_cons, hd, hnil, ih]

/- Claim theorems. -/

/-- C1: the spec claims that for every untrusted filename, including
traversal sequences, `sanitizeFilename` keeps only the final path segment
and the written path `path.join(recordingsDir, sanitized)` always
resolves to a direct child of the managed directory and can never escape
it.  The code violates this at the filename `..`: its basename is `..`,
every character of which is on the allow-list, so the sanitized name is
still `..` and the joined output path resolves to the parent of the
managed directory — the handler then attempts its write there.  (The
ordinary traversal payload `../../etc/passwd` is handled as claimed.) -/
theorem sanitize_dotdot_escapes_managed_dir :
    sanitizeFilename ("..".toList) = "..".toList ∧
    joinName demoDir (sanitizeFilename ("..".toList)) = demoDir.dropLast ∧
    isDirectChild (joinName demoDir (sanitizeFilename ("..".toList))) demoDir = false ∧
    (saveRecording demoDir envOk dataDotDot).events =
      [FsEvent.statfsQuery, FsEvent.writeCall demoDir.dropLast] ∧
    isDirectChild (joinName demoDir (sanitizeFilename ("../../etc/passwd".toList)))
      demoDir = true := by
  decide

/-- C2: the source file is deleted exactly when the ffmpeg subprocess
exits with code 0 and the retain-source flag is false (an absent
`keepWebm` is falsy); on any non-zero exit code or spawn error the source
is never touched regardless of the flag; and a failing delete after a
successful conversion leaves the resolved result successful. -/
theorem convert_source_delete_policy (kw : Option Bool) (env : ConvertEnv)
    (mp4Path : List (List Char)) :
    ((convertOnFinish kw env mp4Path).deleteAttempted = true ↔
      (env.outcome = FfmpegOutcome.exited (some 0) ∧ kw.getD false = false)) ∧
    (∀ code, env.outcome = FfmpegOutcome.exited code → code ≠ some 0 →
      (convertOnFinish kw env mp4Path).deleteAttempted = false ∧
      (convertOnFinish kw env mp4Path).sourceDeleted = false) ∧
    (∀ m, env.outcome = FfmpegOutcome.spawnError m →
      (convertOnFinish kw env mp4Path).deleteAttempted = false ∧
      (convertOnFinish kw env mp4Path).sourceDeleted = false) ∧
    (env.outcome = FfmpegOutcome.exited (some 0) →
      (convertOnFinish kw env mp4Path).response.success = true) := by
  obtain ⟨outc, unl⟩ := env
  cases outc with
  | exited code =>
    by_cases hc : code = some 0
    · subst hc
      by_cases hk : kw.getD false = false
      · simp [convertOnFinish, hk]
      · simp [convertOnFinish, hk]
    · simp [convertOnFinish, hc]
  | spawnError m => simp [convertOnFinish, createErrorResponse]

/-- Witness for C2 at concrete inputs: exit code 0 with retain-source
false attempts the delete; exit code 1 does not. -/
theorem convert_source_delete_policy_witness :
    (convertOnFinish (some false) ⟨FfmpegOutcome.exited (some 0), none⟩
        demoDir).deleteAttempted = true ∧
    (convertOnFinish (some false) ⟨FfmpegOutcome.exited (some 1), none⟩
        demoDir).deleteAttempted = false :=
  ⟨(convert_source_delete_policy (some false)
      ⟨FfmpegOutcome.exited (some 0), none⟩ demoDir).1.mpr ⟨rfl, rfl⟩,
   ((convert_source_delete_policy (some false)
      ⟨FfmpegOutcome.exited (some 1), none⟩ demoDir).2.1 (some 1) rfl
      (by decide)).1⟩

/-- C3: with valid data, a free-space report below the 100 MB threshold
makes `save-recording` return the distinct insufficient-space error with
the statfs query as its only filesystem call — the write is never
invoked; and whenever the check passes the call performs exactly one
statfs query followed by the write. -/
theorem save_space_guard_before_write (dir : List (List Char)) (env : SaveEnv)
    (d : SaveRecordingData) (bavail bsize : Nat)
    (hv : validateSaveRecordingData d = true) :
    (env.statfs = some (bavail, bsize) →
      bavail * bsize < MIN_FREE_SPACE_MB * 1024 * 1024 →
      (saveRecording dir env d).response.success = false ∧
      (saveRecording dir env d).response.error = some insufficientSpaceMsg ∧
      (saveRecording dir env d).events = [FsEvent.statfsQuery]) ∧
    (hasEnoughDiskSpace env.statfs = true →
      (saveRecording dir env d).events =
        [FsEvent.statfsQuery,
         FsEvent.writeCall (joinName dir (sanitizeFilename d.filename))]) := by
  obtain ⟨st, wr⟩ := env
  constructor
  · intro h1 h2
    have h1a : st = some (bavail, bsize) := h1
    have hlow : hasEnoughDiskSpace st = false := by
      rw [h1a]
      simp only [MIN_FREE_SPACE_MB] at h2
      simp only [hasEnoughDiskSpace, MIN_FREE_SPACE_MB, gt_iff_lt,
        decide_eq_false_iff_not, not_lt]
      omega
    simp [saveRecording, hv, hlow]
  · intro h
    cases wr <;> simp [saveRecording, hv, h]

/-- Witness for C3: 10 blocks of 1024 bytes is far below 100 MB, so the
save returns the insufficient-space error after only the statfs query. -/
theorem save_space_guard_before_write_witness :
    (saveRecording demoDir ⟨some (10, 1024), none⟩ dataGood).response.success = false ∧
    (saveRecording demoDir ⟨some (10, 1024), none⟩ dataGood).response.error =
      some insufficientSpaceMsg ∧
    (saveRecording demoDir ⟨some (10, 1024), none⟩ dataGood).events =
      [FsEvent.statfsQuery] :=
  (save_space_guard_before_write demoDir ⟨some (10, 1024), none⟩ dataGood 10 1024
    rfl).1 rfl (by decide)

/-- C4: a recording that emits its chunks in order after `startRecording`
cleared the buffer finalizes to the concatenation of exactly those chunks
in emission order — the blob equals the flattening of the emitted
sequence and its byte length is the sum of all chunk lengths. -/
theorem record_chunks_complete (s : RecorderState) (ds : List (List Nat)) :
    (startRecordingInit s).chunks = [] ∧
    onstopBlob (emitAll (startRecordingInit s) ds) = ds.flatten ∧
    (onstopBlob (emitAll (startRecordingInit s) ds)).length =
      (ds.map List.length).sum := by
  have h1 : onstopBlob (emitAll (startRecordingInit s) ds) = ds.flatten := by
    show (emitAll (startRecordingInit s) ds).chunks.flatten = ds.flatten
    rw [emitAll_chunks]
    simp only [startRecordingInit, List.nil_append]
    exact flatten_filter_pos ds
  exact ⟨rfl, h1, by rw [h1, List.length_flatten]⟩

/-- C5: in the `onstop` finalize flow, `convertToMp4` is invoked only
after `saveRecording` resolved successfully with a saved path (and is
then called on that path); a failed or throwing save never triggers a
conversion. -/
theorem convert_only_after_save_success (wantMp4 : Bool) (save : SaveCall) :
    ((onstopFlow wantMp4 save).convertInvoked = true →
      ∃ r, save = SaveCall.resolved r ∧ r.success = true ∧ r.data.isSome = true ∧
        (onstopFlow wantMp4 save).convertWebmPath = r.data ∧
        (onstopFlow wantMp4 save).convertKeepWebm = some true) ∧
    (∀ r, save = SaveCall.resolved r → r.success = false →
      (onstopFlow wantMp4 save).convertInvoked = false) ∧
    (∀ m, save = SaveCall.threw m →
      (onstopFlow wantMp4 save).convertInvoked = false) := by
  cases save with
  | threw m => simp [onstopFlow]
  | resolved r =>
    obtain ⟨rs, rd, re⟩ := r
    refine ⟨?_, ?_, ?_⟩
    · intro hinv
      cases rs with
      | false => simp [onstopFlow] at hinv
      | true =>
        cases rd with
        | none => simp [onstopFlow] at hinv
        | some p =>
          cases wantMp4 with
          | false => simp [onstopFlow] at hinv
          | true =>
            refine ⟨⟨true, some p, re⟩, rfl, rfl, rfl, ?_, ?_⟩ <;>
              simp [onstopFlow]
    · intro r2 heq hfail
      cases heq
      have hf : rs = false := hfail
      simp [onstopFlow, hf]
    · intro m heq
      simp at heq

/-- Witness for C5: a failed save and a throwing save both leave the
conversion uninvoked. -/
theorem convert_only_after_save_success_witness :
    (onstopFlow true (SaveCall.resolved ⟨false, none, some ("x".toList)⟩)).convertInvoked
      = false ∧
    (onstopFlow true (SaveCall.threw ("boom".toList))).convertInvoked = false :=
  ⟨(convert_only_after_save_success true
      (SaveCall.resolved ⟨false, none, some ("x".toList)⟩)).2.1
      ⟨false, none, some ("x".toList)⟩ rfl rfl,
   (convert_only_after_save_success true
      (SaveCall.threw ("boom".toList))).2.2 ("boom".toList) rfl⟩

/-- C6 counterexample: the claim says a failure envelope contains no host
error code or message.  For a typical `fs` error the sanitizer replaces
only the path fragment: the returned error string still contains the host
error code `ENOENT` and its message text. -/
theorem sanitized_error_retains_host_code :
    containsSeq ("ENOENT: no such file or directory".toList)
      ((createErrorResponse
        (some ("ENOENT: no such file or directory, open /Users/me/Documents/MacCamera/rec.webm".toList))).error.getD [])
      = true := by
  show containsSeq _ (replacePaths _) = true
  rw [replacePaths_eq_aux]
  decide

/-- C6 as amended: every failure envelope built by `createErrorResponse`
has `success = false` and an error string in which every path fragment (a
slash followed by non-whitespace) has been replaced by the `[path]`
placeholder, so no raw path fragment survives; host error codes and
messages outside path fragments pass through unchanged. -/
theorem error_paths_replaced (err : Option (List Char)) :
    (createErrorResponse err).success = false ∧
    noRawPathFragment ((createErrorResponse err).error.getD []) = true := by
  cases err with
  | none => exact ⟨rfl, noRaw_replacePaths _⟩
  | some m => exact ⟨rfl, noRaw_replacePaths _⟩

/-- C7 counterexample: the claim says a failed write triggers a
best-effort removal of the partial file.  At a concrete failing write the
handler performs exactly the statfs query and the write call — no unlink
of the target path is ever attempted. -/
theorem save_write_failure_no_cleanup_at_input :
    (saveRecording demoDir envWriteFail dataGood).response.success = false ∧
    (saveRecording demoDir envWriteFail dataGood).events =
      [FsEvent.statfsQuery,
       FsEvent.writeCall (demoDir ++ ["recording-1.webm".toList])] ∧
    FsEvent.unlinkCall (demoDir ++ ["recording-1.webm".toList]) ∉
      (saveRecording demoDir envWriteFail dataGood).events := by
  decide

/-- C7 as amended: when the write of a valid `save-recording` call fails,
the handler catches the error and returns a sanitized failure envelope,
and attempts no removal of the partial file — no unlink call occurs, so a
truncated artifact may remain at the target path. -/
theorem save_write_failure_no_unlink (dir : List (List Char)) (env : SaveEnv)
    (d : SaveRecordingData) (m : List Char)
    (hv : validateSaveRecordingData d = true)
    (hw : env.writeResult = some m)
    (hs : hasEnoughDiskSpace env.statfs = true) :
    (saveRecording dir env d).response.success = false ∧
    (saveRecording dir env d).response.error = some (replacePaths m) ∧
    ∀ p, FsEvent.unlinkCall p ∉ (saveRecording dir env d).events := by
  obtain ⟨st, wr⟩ := env
  simp only at hw hs
  subst hw
  simp [saveRecording, hv, hs, createErrorResponse]

/-- Witness for C7 as amended, at the concrete failing write. -/
theorem save_write_failure_no_unlink_witness :
    (saveRecording demoDir envWriteFail dataGood).response.success = false ∧
    (saveRecording demoDir envWriteFail dataGood).response.error =
      some (replacePaths ("ENOSPC: no space left on device, write".toList)) ∧
    ∀ p, FsEvent.unlinkCall p ∉ (saveRecording demoDir envWriteFail dataGood).events :=
  save_write_failure_no_unlink demoDir envWriteFail dataGood
    ("ENOSPC: no space left on device, write".toList) rfl rfl (by decide)

/-- C8 counterexample: the claim says a name sanitizing to the empty
string is rejected or coerced before any filesystem mutation and a write
at the bare managed-directory path never happens.  For the filename `///`
the sanitized name is empty, nothing is rejected, and the handler
attempts the write at the managed directory itself. -/
theorem empty_sanitized_name_write_attempted :
    sanitizeFilename ("///".toList) = [] ∧
    (saveRecording demoDir
        ⟨some (1000000, 4096),
         some ("EISDIR: illegal operation on a directory, read".toList)⟩
        dataSlashes).events =
      [FsEvent.statfsQuery, FsEvent.writeCall demoDir] ∧
    (saveRecording demoDir
        ⟨some (1000000, 4096),
         some ("EISDIR: illegal operation on a directory, read".toList)⟩
        dataSlashes).response.success = false := by
  decide

/-- C8 as amended: an empty sanitization result is neither rejected nor
coerced: with valid data and a passing space check the handler proceeds
and attempts the write at `path.join(recordingsDir, empty)`, which is the
bare managed-directory path itself; the resulting OS error is only caught
and returned as a sanitized failure. -/
theorem empty_sanitized_name_not_rejected (dir : List (List Char))
    (env : SaveEnv) (d : SaveRecordingData)
    (hv : validateSaveRecordingData d = true)
    (he : sanitizeFilename d.filename = [])
    (hs : hasEnoughDiskSpace env.statfs = true) :
    (saveRecording dir env d).events =
      [FsEvent.statfsQuery, FsEvent.writeCall dir] := by
  obtain ⟨st, wr⟩ := env
  simp only at hs
  cases wr <;> simp [saveRecording, hv, hs, he, joinName]

/-- Witness for C8 as amended, at the concrete all-separators filename. -/
theorem empty_sanitized_name_not_rejected_witness :
    (saveRecording demoDir envOk dataSlashes).events =
      [FsEvent.statfsQuery, FsEvent.writeCall demoDir] :=
  empty_sanitized_name_not_rejected demoDir envOk dataSlashes rfl (by decide)
    (by decide)

/-- C9: stopping twice in a row is a no-op the second time (same state,
no recorder stop, no toast), and a stop with no live recorder or with the
`isRecording` flag down changes nothing — the guard covers both. -/
theorem stop_recording_idempotent (s : RecorderState) :
    stopRecording ((stopRecording s).state) =
      { state := (stopRecording s).state,
        recorderStopCalled := false, toastShown := false } ∧
    ((s.hasRecorder && s.isRecording) = false →
      stopRecording s =
        { state := s, recorderStopCalled := false, toastShown := false }) := by
  constructor
  · by_cases h : (s.hasRecorder && s.isRecording) = true
    · simp [stopRecording, h]
    · simp only [Bool.not_eq_true] at h
      simp [stopRecording, h]
  · intro h
    simp [stopRecording, h]

/-- Witness for C9: a double stop from an active state and a stop from an
idle state, both at concrete states. -/
theorem stop_recording_idempotent_witness :
    stopRecording ((stopRecording ⟨[], true, true⟩).state) =
      { state := (stopRecording ⟨[], true, true⟩).state,
        recorderStopCalled := false, toastShown := false } ∧
    stopRecording ⟨[], false, false⟩ =
      { state := ⟨[], false, false⟩,
        recorderStopCalled := false, toastShown := false } :=
  ⟨(stop_recording_idempotent ⟨[], true, true⟩).1,
   (stop_recording_idempotent ⟨[], false, false⟩).2 (by decide)⟩

/-- C10: the disk-space guard fails open — when the statfs query itself
throws, `hasEnoughDiskSpace` reports `true`, so a valid save proceeds to
attempt the write instead of rejecting with the insufficient-space
error. -/
theorem disk_check_fails_open (dir : List (List Char))
    (wr : Option (List Char)) (d : SaveRecordingData)
    (hv : validateSaveRecordingData d = true) :
    hasEnoughDiskSpace none = true ∧
    (saveRecording dir ⟨none, wr⟩ d).events =
      [FsEvent.statfsQuery,
       FsEvent.writeCall (joinName dir (sanitizeFilename d.filename))] := by
  refine ⟨rfl, ?_⟩
  cases wr <;> simp [saveRecording, hv, hasEnoughDiskSpace]

/-- Witness for C10 at a concrete payload: with a throwing statfs the
write is still attempted. -/
theorem disk_check_fails_open_witness :
    hasEnoughDiskSpace none = true ∧
    (saveRecording demoDir ⟨none, none⟩ dataGood).events =
      [FsEvent.statfsQuery,
       FsEvent.writeCall (joinName demoDir (sanitizeFilename dataGood.filename))] :=
  disk_check_fails_open demoDir none dataGood rfl

end MacCamera
